import Mathlib

/-!
Verification of the JLPT vocabulary Excel-to-SQL conversion scripts
(`02_excel_to_sql.py`, `SQL_test/02_excel_to_sql.py`,
`Process/02_excel_to_sql.py`).

Strings are modelled as `List Char`.  The Python primitives `str.strip`,
`re.sub` character-class deletion, `in`/`index` substring search,
`str.split`, `str.replace` and the stable length-descending `sorted` are
embedded as executable Lean functions.  The `pandas.isna` checks can never
fire on actual strings, so they vanish in the embedding; failure of
`find_word_in_sentence` (the Python triple of three `None`) is modelled as
`Option.none`.  The fugashi branches of the scripts are guarded by
`FUGASHI_AVAILABLE`, which is `False` in the configuration studied here
(fugashi absent), so those branches are no-ops and are omitted.
-/

/-- Strings as lists of characters. -/
abbrev Str := List Char

/-- Shorthand turning a Lean string literal into the `List Char` model. -/
def S (s : String) : Str := s.toList

/-- Whitespace characters stripped by Python `str.strip`. -/
def wsChars : List Char := [' ', '\t', '\n', '\r', '\x0b', '\x0c']

/-- Is `c` whitespace? -/
def isWs (c : Char) : Bool := wsChars.contains c

/-- Python `str.strip()`: drop whitespace from both ends. -/
def pyStrip (s : Str) : Str := ((s.dropWhile isWs).reverse.dropWhile isWs).reverse

/-- The characters removed by the marker-deleting `re.sub` character class. -/
def markerChars : List Char := ['＊', '*', '+', '（', '）', '(', ')', '①', '②', '③', '④', '⑤']

/-- The cleaned word: marker characters removed by `re.sub`, then stripped. -/
def cleanWord (kanji : Str) : Str := pyStrip (kanji.filter (fun c => !(markerChars.contains c)))

/-- Does `s` start with `p`?  (Used to define substring search.) -/
def strHasPrefix : Str → Str → Bool
  | [], _ => true
  | _ :: _, [] => false
  | p :: ps, c :: cs => p == c && strHasPrefix ps cs

/-- Python `s.endswith(suf)`. -/
def pyEndsWith (s suf : Str) : Bool := strHasPrefix suf.reverse s.reverse

/-- Python `sentence.index(pattern)`: index of the leftmost occurrence of
`p` in `s`, `none` when `p` does not occur (`pattern in sentence` is
`(strFind p s).isSome`). -/
def strFind (p : Str) : Str → Option Nat
  | [] => if strHasPrefix p [] then some 0 else none
  | c :: rest => if strHasPrefix p (c :: rest) then some 0 else (strFind p rest).map (· + 1)

/-- Predicate: `p` occurs as a (contiguous) substring of `s`. -/
def occursIn (p s : Str) : Prop := ∃ u v, u ++ p ++ v = s

/-- The `verb_endings` table of `02_excel_to_sql.py` (root copy; its る row
carries the extra suffix ません absent from the `SQL_test` copy). -/
def verbTableRoot : List (Str × List Str) :=
  [(S "る", [S "", S "て", S "た", S "ない", S "ます", S "れば", S "よう", S "られる", S "させる",
             S "ている", S "ていた", S "てる", S "てた", S "ず", S "ずに", S "たい", S "たら",
             S "たり", S "ろ", S "れ", S "させ", S "られ", S "なかった", S "ません"]),
   (S "う", [S "わ", S "い", S "って", S "った", S "わない", S "います", S "えば", S "おう",
             S "わず", S "いたい", S "ったら", S "ったり", S "え", S "わなかった"]),
   (S "く", [S "か", S "き", S "いて", S "いた", S "かない", S "きます", S "けば", S "こう",
             S "かず", S "きたい", S "いたら", S "いたり", S "け", S "かなかった"]),
   (S "ぐ", [S "が", S "ぎ", S "いで", S "いだ", S "がない", S "ぎます", S "げば", S "ごう",
             S "がず", S "ぎたい", S "いだら", S "いだり", S "げ", S "がなかった"]),
   (S "す", [S "さ", S "し", S "して", S "した", S "さない", S "します", S "せば", S "そう",
             S "さず", S "したい", S "したら", S "したり", S "せ", S "さなかった"]),
   (S "つ", [S "た", S "ち", S "って", S "った", S "たない", S "ちます", S "てば", S "とう",
             S "たず", S "ちたい", S "ったら", S "ったり", S "て", S "たなかった"]),
   (S "ぬ", [S "な", S "に", S "んで", S "んだ", S "なない", S "にます", S "ねば", S "のう",
             S "なず", S "にたい", S "んだら", S "んだり", S "ね", S "ななかった"]),
   (S "ぶ", [S "ば", S "び", S "んで", S "んだ", S "ばない", S "びます", S "べば", S "ぼう",
             S "ばず", S "びたい", S "んだら", S "んだり", S "べ", S "ばなかった"]),
   (S "む", [S "ま", S "み", S "んで", S "んだ", S "まない", S "みます", S "めば", S "もう",
             S "まず", S "みたい", S "んだら", S "んだり", S "め", S "まなかった"])]

/-- The `verb_endings` table of `SQL_test/02_excel_to_sql.py` (identical to
the root copy except that its る row lacks ません). -/
def verbTableTest : List (Str × List Str) :=
  [(S "る", [S "", S "て", S "た", S "ない", S "ます", S "れば", S "よう", S "られる", S "させる",
             S "ている", S "ていた", S "てる", S "てた", S "ず", S "ずに", S "たい", S "たら",
             S "たり", S "ろ", S "れ", S "させ", S "られ", S "なかった"]),
   (S "う", [S "わ", S "い", S "って", S "った", S "わない", S "います", S "えば", S "おう",
             S "わず", S "いたい", S "ったら", S "ったり", S "え", S "わなかった"]),
   (S "く", [S "か", S "き", S "いて", S "いた", S "かない", S "きます", S "けば", S "こう",
             S "かず", S "きたい", S "いたら", S "いたり", S "け", S "かなかった"]),
   (S "ぐ", [S "が", S "ぎ", S "いで", S "いだ", S "がない", S "ぎます", S "げば", S "ごう",
             S "がず", S "ぎたい", S "いだら", S "いだり", S "げ", S "がなかった"]),
   (S "す", [S "さ", S "し", S "して", S "した", S "さない", S "します", S "せば", S "そう",
             S "さず", S "したい", S "したら", S "したり", S "せ", S "さなかった"]),
   (S "つ", [S "た", S "ち", S "って", S "った", S "たない", S "ちます", S "てば", S "とう",
             S "たず", S "ちたい", S "ったら", S "ったり", S "て", S "たなかった"]),
   (S "ぬ", [S "な", S "に", S "んで", S "んだ", S "なない", S "にます", S "ねば", S "のう",
             S "なず", S "にたい", S "んだら", S "んだり", S "ね", S "ななかった"]),
   (S "ぶ", [S "ば", S "び", S "んで", S "んだ", S "ばない", S "びます", S "べば", S "ぼう",
             S "ばず", S "びたい", S "んだら", S "んだり", S "べ", S "ばなかった"]),
   (S "む", [S "ま", S "み", S "んで", S "んだ", S "まない", S "みます", S "めば", S "もう",
             S "まず", S "みたい", S "んだら", S "んだり", S "め", S "まなかった"])]

/-- The `i_adj_endings` list (identical in both copies). -/
def iAdjEndings : List Str :=
  [S "い", S "く", S "くて", S "かった", S "くない", S "くなかった",
   S "ければ", S "さ", S "そう", S "すぎる", S "すぎ", S "み"]

/-- One iteration of the `for ending, conjugations in verb_endings.items()`
loop: on an ending match with non-empty stem, append `stem + conj` for every
tabulated conjugation and then the bare stem. -/
def verbStep (clean : Str) (acc : List Str) (ec : Str × List Str) : List Str :=
  if pyEndsWith clean ec.1 = true then
    let stem := clean.take (clean.length - ec.1.length)
    if stem ≠ [] then acc ++ ec.2.map (fun conj => stem ++ conj) ++ [stem] else acc
  else acc

/-- The い-adjective block: `if clean_kanji.endswith('い') and len(clean_kanji) > 1`. -/
def iAdjStep (clean : Str) (acc : List Str) : List Str :=
  if pyEndsWith clean (S "い") = true ∧ 1 < clean.length then
    let stem := clean.take (clean.length - 1)
    acc ++ iAdjEndings.map (fun e => stem ++ e) ++ [stem]
  else acc

/-- The な-adjective block: `if clean_kanji.endswith('な')`. -/
def naStep (clean : Str) (acc : List Str) : List Str :=
  if pyEndsWith clean (S "な") = true then
    let stem := clean.take (clean.length - 1)
    acc ++ [stem, stem ++ S "な", stem ++ S "に", stem ++ S "だ", stem ++ S "で",
            stem ++ S "だった", stem ++ S "ではない", stem ++ S "じゃない"]
  else acc

/-- The `(な)`-marker block: taken when the cleaned word ends in the
three-character parenthesised な marker (either bracket style); the regex
then deletes those final three characters. -/
def naParenStep (clean : Str) (acc : List Str) : List Str :=
  if pyEndsWith clean (S "(な)") = true ∨ pyEndsWith clean (S "（な）") = true then
    let stem := clean.take (clean.length - 3)
    acc ++ [stem, stem ++ S "な", stem ++ S "に", stem ++ S "だ", stem ++ S "で"]
  else acc

/-- The particle list of the compound-word loop. -/
def particleChars : List Char := ['が', 'を', 'に', 'で', 'と', 'の']

/-- One iteration of the particle loop: extend with the parts of the split
at the particle, then append the particle-free replace variant. -/
def particleStep (clean : Str) (acc : List Str) (c : Char) : List Str :=
  if c ∈ clean then acc ++ clean.splitOn c ++ [clean.filter (fun x => x ≠ c)] else acc

/-- The final de-duplication loop of `get_stem_patterns`: keep the first
occurrence of every non-empty pattern (`if p and p not in seen`). -/
def uniqueFilter : List Str → List Str → List Str
  | _, [] => []
  | seen, p :: rest =>
    if p ≠ [] ∧ p ∉ seen then p :: uniqueFilter (p :: seen) rest else uniqueFilter seen rest

/-- The raw (pre-deduplication) pattern list of `get_stem_patterns`,
parameterised by the verb-ending table (the only datum in which the root and
`SQL_test` copies differ). -/
def rawPatternsWith (vt : List (Str × List Str)) (kanji : Str) : List Str :=
  let clean := cleanWord kanji
  let p1 := if clean ≠ kanji then [kanji, clean] else [kanji]
  particleChars.foldl (particleStep clean)
    (naParenStep clean (naStep clean (iAdjStep clean (vt.foldl (verbStep clean) p1))))

/-- The function `get_stem_patterns` of the root copy (`02_excel_to_sql.py`), with the
fugashi branch disabled (`FUGASHI_AVAILABLE = False`). -/
def get_stem_patterns (kanji : Str) : List Str :=
  uniqueFilter [] (rawPatternsWith verbTableRoot kanji)

/-- The function `get_stem_patterns` of the `SQL_test` copy. -/
def get_stem_patterns_test (kanji : Str) : List Str :=
  uniqueFilter [] (rawPatternsWith verbTableTest kanji)

/-- The ordering used by `sorted(patterns, key=len, reverse=True)`:
`a` may come before `b` iff `a` is at least as long. -/
def lenDesc (a b : Str) : Prop := b.length ≤ a.length

instance : DecidableRel lenDesc := fun a b => Nat.decLe b.length a.length

instance : IsTotal Str lenDesc := ⟨fun a b => Nat.le_total b.length a.length⟩

instance : IsTrans Str lenDesc := ⟨fun _ _ _ h h' => Nat.le_trans h' h⟩

/-- The matching loop of `find_word_in_sentence`: try each pattern in order,
return the split at the leftmost occurrence of the first hit. -/
def tryPatterns (s : Str) : List Str → Option (Str × Str × Str)
  | [] => none
  | p :: rest =>
    if p ≠ [] ∧ (strFind p s).isSome then
      let i := (strFind p s).getD 0
      some (s.take i, p, s.drop (i + p.length))
    else tryPatterns s rest

/-- The function `find_word_in_sentence` of the root copy: empty-input guard, `strip` of
both arguments, stable longest-first sort, then the matching loop. -/
def find_word_in_sentence (kanji sentence : Str) : Option (Str × Str × Str) :=
  if sentence = [] ∨ kanji = [] then none
  else
    tryPatterns (pyStrip sentence)
      (List.insertionSort lenDesc (get_stem_patterns (pyStrip kanji)))

/-- The function `find_word_in_sentence` of the `SQL_test` copy: identical except that the
inputs are not stripped and the verb table lacks ません. -/
def find_word_in_sentence_test (kanji sentence : Str) : Option (Str × Str × Str) :=
  if sentence = [] ∨ kanji = [] then none
  else
    tryPatterns sentence
      (List.insertionSort lenDesc (get_stem_patterns_test kanji))

/-- The `VERB_CONJUGATION_MAP` of `Process/02_excel_to_sql.py`: for each verb
ending, the map from conjugation suffix to display suffix. -/
def verbTableProc : List (Str × List (Str × Str)) :=
  [(S "る",
    [(S "", S ""), (S "て", S "～て"), (S "た", S "～た"), (S "ない", S "～ない"),
     (S "ます", S "～ます"), (S "れば", S "～れば"), (S "よう", S "～よう"),
     (S "られる", S "～られる"), (S "させる", S "～させる"), (S "ている", S "～ている"),
     (S "ていた", S "～ていた"), (S "てる", S "～てる"), (S "てた", S "～てた"),
     (S "ず", S "～ず"), (S "ずに", S "～ずに"), (S "たい", S "～たい"),
     (S "たら", S "～たら"), (S "たり", S "～たり"), (S "ろ", S "～ろ"),
     (S "れ", S "～れ"), (S "させ", S "～させ"), (S "られ", S "～られ"),
     (S "なかった", S "～なかった"), (S "ません", S "～ません"),
     (S "ながら", S "～ながら"), (S "つつ", S "～つつ")]),
   (S "く",
    [(S "", S ""), (S "いて", S "～いて"), (S "いた", S "～いた"),
     (S "かない", S "～かない"), (S "きます", S "～きます"), (S "けば", S "～けば"),
     (S "こう", S "～こう"), (S "かず", S "～かず"), (S "きたい", S "～きたい"),
     (S "いたら", S "～いたら"), (S "いたり", S "～いたり"), (S "け", S "～け"),
     (S "かなかった", S "～かなかった"), (S "き", S "～き"), (S "か", S "～か"),
     (S "きながら", S "～きながら")]),
   (S "ぐ",
    [(S "", S ""), (S "いで", S "～いで"), (S "いだ", S "～いだ"),
     (S "がない", S "～がない"), (S "ぎます", S "～ぎます"), (S "げば", S "～げば"),
     (S "ごう", S "～ごう"), (S "がず", S "～がず"), (S "ぎたい", S "～ぎたい"),
     (S "いだら", S "～いだら"), (S "いだり", S "～いだり"), (S "げ", S "～げ"),
     (S "がなかった", S "～がなかった"), (S "ぎ", S "～ぎ"), (S "が", S "～が"),
     (S "ぎながら", S "～ぎながら")]),
   (S "す",
    [(S "", S ""), (S "して", S "～して"), (S "した", S "～した"),
     (S "さない", S "～さない"), (S "します", S "～します"), (S "せば", S "～せば"),
     (S "そう", S "～そう"), (S "さず", S "～さず"), (S "したい", S "～したい"),
     (S "したら", S "～したら"), (S "したり", S "～したり"), (S "せ", S "～せ"),
     (S "さなかった", S "～さなかった"), (S "し", S "～し"), (S "さ", S "～さ"),
     (S "しながら", S "～しながら")]),
   (S "つ",
    [(S "", S ""), (S "って", S "～って"), (S "った", S "～った"),
     (S "たない", S "～たない"), (S "ちます", S "～ちます"), (S "てば", S "～てば"),
     (S "とう", S "～とう"), (S "たず", S "～たず"), (S "ちたい", S "～ちたい"),
     (S "ったら", S "～ったら"), (S "ったり", S "～ったり"), (S "て", S "～て"),
     (S "たなかった", S "～たなかった"), (S "ち", S "～ち"), (S "た", S "～た"),
     (S "ちながら", S "～ちながら")]),
   (S "ぬ",
    [(S "", S ""), (S "んで", S "～んで"), (S "んだ", S "～んだ"),
     (S "なない", S "～なない"), (S "にます", S "～にます"), (S "ねば", S "～ねば"),
     (S "のう", S "～のう"), (S "なず", S "～なず"), (S "にたい", S "～にたい"),
     (S "んだら", S "～んだら"), (S "んだり", S "～んだり"), (S "ね", S "～ね"),
     (S "ななかった", S "～ななかった"), (S "に", S "～に"), (S "な", S "～な"),
     (S "にながら", S "～にながら")]),
   (S "ぶ",
    [(S "", S ""), (S "んで", S "～んで"), (S "んだ", S "～んだ"),
     (S "ばない", S "～ばない"), (S "びます", S "～びます"), (S "べば", S "～べば"),
     (S "ぼう", S "～ぼう"), (S "ばず", S "～ばず"), (S "びたい", S "～びたい"),
     (S "んだら", S "～んだら"), (S "んだり", S "～んだり"), (S "べ", S "～べ"),
     (S "ばなかった", S "～ばなかった"), (S "び", S "～び"), (S "ば", S "～ば"),
     (S "びながら", S "～びながら")]),
   (S "む",
    [(S "", S ""), (S "んで", S "～んで"), (S "んだ", S "～んだ"),
     (S "まない", S "～まない"), (S "みます", S "～みます"), (S "めば", S "～めば"),
     (S "もう", S "～もう"), (S "まず", S "～まず"), (S "みたい", S "～みたい"),
     (S "んだら", S "～んだら"), (S "んだり", S "～んだり"), (S "め", S "～め"),
     (S "まなかった", S "～まなかった"), (S "み", S "～み"), (S "ま", S "～ま"),
     (S "みながら", S "～みながら")]),
   (S "う",
    [(S "", S ""), (S "って", S "～って"), (S "った", S "～った"),
     (S "わない", S "～わない"), (S "います", S "～います"), (S "えば", S "～えば"),
     (S "おう", S "～おう"), (S "わず", S "～わず"), (S "いたい", S "～いたい"),
     (S "ったら", S "～ったら"), (S "ったり", S "～ったり"), (S "え", S "～え"),
     (S "わなかった", S "～わなかった"), (S "い", S "～い"), (S "わ", S "～わ"),
     (S "いながら", S "～いながら")])]

/-- The `I_ADJ_CONJUGATION_MAP` of the Process copy. -/
def iAdjMapProc : List (Str × Str) :=
  [(S "い", S ""), (S "く", S "～く"), (S "くて", S "～くて"), (S "かった", S "～かった"),
   (S "くない", S "～くない"), (S "くなかった", S "～くなかった"), (S "ければ", S "～ければ"),
   (S "さ", S "～さ"), (S "そう", S "～そう"), (S "すぎる", S "～すぎる"),
   (S "すぎ", S "～すぎ"), (S "み", S "～み")]

/-- The `NA_ADJ_CONJUGATION_MAP` of the Process copy. -/
def naMapProc : List (Str × Str) :=
  [(S "", S ""), (S "な", S "～な"), (S "に", S "～に"), (S "だ", S "～だ"),
   (S "で", S "～で"), (S "だった", S "～だった"), (S "ではない", S "～ではない"),
   (S "じゃない", S "～じゃない")]

/-- First components of a pattern/display list (`[p[0] for p in patterns]`). -/
def fsts (l : List (Str × Str)) : List Str := l.map Prod.fst

/-- A guarded append of the Process copy:
`if form and form not in [p[0] for p in patterns]: patterns.append((form, d))`. -/
def addGuarded (acc : List (Str × Str)) (pr : Str × Str) : List (Str × Str) :=
  if pr.1 ≠ [] ∧ pr.1 ∉ fsts acc then acc ++ [pr] else acc

/-- One iteration of the verb loop of `get_stem_and_conjugations`. -/
def gscVerbStep (clean : Str) (acc : List (Str × Str)) (ec : Str × List (Str × Str)) :
    List (Str × Str) :=
  if pyEndsWith clean ec.1 = true then
    let stem := clean.take (clean.length - ec.1.length)
    if stem ≠ [] then
      let acc' := ec.2.foldl (fun a sd => addGuarded a (stem ++ sd.1, sd.2)) acc
      if stem ∉ fsts acc' then acc' ++ [(stem, S "～")] else acc'
    else acc
  else acc

/-- The い-adjective block of `get_stem_and_conjugations`. -/
def gscIAdjStep (clean : Str) (acc : List (Str × Str)) : List (Str × Str) :=
  if pyEndsWith clean (S "い") = true ∧ 1 < clean.length then
    let stem := clean.take (clean.length - 1)
    let acc' := iAdjMapProc.foldl (fun a sd => addGuarded a (stem ++ sd.1, sd.2)) acc
    if stem ∉ fsts acc' then acc' ++ [(stem, S "～")] else acc'
  else acc

/-- The な-adjective block of `get_stem_and_conjugations`. -/
def gscNaStep (clean : Str) (acc : List (Str × Str)) : List (Str × Str) :=
  if pyEndsWith clean (S "な") = true then
    let stem := clean.take (clean.length - 1)
    naMapProc.foldl (fun a sd => addGuarded a (stem ++ sd.1, sd.2)) acc
  else acc

/-- The `(な)`-marker block of `get_stem_and_conjugations`. -/
def gscNaParenStep (clean : Str) (acc : List (Str × Str)) : List (Str × Str) :=
  if pyEndsWith clean (S "(な)") = true ∨ pyEndsWith clean (S "（な）") = true then
    let stem := clean.take (clean.length - 3)
    naMapProc.foldl (fun a sd => addGuarded a (stem ++ sd.1, sd.2)) acc
  else acc

/-- One iteration of the particle loop of `get_stem_and_conjugations`
(the Process copy only appends the split parts, each guarded). -/
def gscParticleStep (clean : Str) (acc : List (Str × Str)) (c : Char) : List (Str × Str) :=
  if c ∈ clean then (clean.splitOn c).foldl (fun a part => addGuarded a (part, S "")) acc
  else acc

/-- The function `get_stem_and_conjugations` of the Process copy (fugashi disabled):
pattern/display-suffix pairs, first components kept distinct by the
membership guards. -/
def get_stem_and_conjugations (kanji : Str) : List (Str × Str) :=
  let clean := cleanWord kanji
  let base := if clean ≠ kanji then [(kanji, S ""), (clean, S "")] else [(kanji, S "")]
  particleChars.foldl (gscParticleStep clean)
    (gscNaParenStep clean (gscNaStep clean (gscIAdjStep clean
      (verbTableProc.foldl (gscVerbStep clean) base))))

/-- Ordering for `sorted(patterns, key=lambda x: len(x[0]), reverse=True)`. -/
def lenDescP (a b : Str × Str) : Prop := b.1.length ≤ a.1.length

instance : DecidableRel lenDescP := fun a b => Nat.decLe b.1.length a.1.length

instance : IsTotal (Str × Str) lenDescP := ⟨fun a b => Nat.le_total b.1.length a.1.length⟩

instance : IsTrans (Str × Str) lenDescP := ⟨fun _ _ _ h h' => Nat.le_trans h' h⟩

/-- The matching loop of `find_word_in_sentence_with_conjugation`: split the
sentence at the leftmost occurrence of the first hit and prepend the display
suffix (when non-empty) to the after fragment. -/
def tryPairs (s : Str) : List (Str × Str) → Option (Str × Str × Str)
  | [] => none
  | pr :: rest =>
    if pr.1 ≠ [] ∧ (strFind pr.1 s).isSome then
      let i := (strFind pr.1 s).getD 0
      let after := s.drop (i + pr.1.length)
      some (s.take i, pr.1, if pr.2 ≠ [] then pr.2 ++ after else after)
    else tryPairs s rest

/-- The function `find_word_in_sentence_with_conjugation` of the Process copy. -/
def find_word_in_sentence_with_conjugation (kanji sentence : Str) :
    Option (Str × Str × Str) :=
  if sentence = [] ∨ kanji = [] then none
  else
    tryPairs (pyStrip sentence)
      (List.insertionSort lenDescP (get_stem_and_conjugations (pyStrip kanji)))

/-- The single-quote character (ASCII 39). -/
def squo : Char := Char.ofNat 39

/-- Python values reaching `escape_sql_string`: `None`, `NaN`, or a string. -/
inductive PyValue where
  | none : PyValue
  | nan : PyValue
  | str : Str → PyValue
deriving DecidableEq, Repr

/-- Python str.replace of a single quote by two: double every single-quote character. -/
def doubleQuotes : Str → Str
  | [] => []
  | c :: rest => if c = squo then squo :: squo :: doubleQuotes rest else c :: doubleQuotes rest

/-- The function `escape_sql_string` (identical in all three copies): `NULL` for
`None`/`NaN`, otherwise the string in single quotes with interior quotes
doubled. -/
def escape_sql_string : PyValue → Str
  | PyValue.none => S "NULL"
  | PyValue.nan => S "NULL"
  | PyValue.str s => squo :: (doubleQuotes s ++ [squo])

/-- Every single-quote character is immediately paired with a second one:
the string parses as non-quote characters and adjacent quote pairs. -/
def quotesPaired : Str → Bool
  | [] => true
  | c :: rest =>
    if c = squo then
      match rest with
      | c2 :: rest2 => if c2 = squo then quotesPaired rest2 else false
      | [] => false
    else quotesPaired rest

/-- One vocabulary record as assembled by `process_excel_file` and consumed
by `generate_sql` (root copy). -/
structure Vocab where
  level : PyValue
  ref_no : Option Int
  kanji : PyValue
  hiragana : PyValue
  meaning_en : PyValue
  example_before : PyValue
  example_after : PyValue
  hint : PyValue
  full_sentence : PyValue
  page_no : Option Int
  week : Option Int
  day : Option Int
  word_type : PyValue
  difficulty_level : Int
deriving Repr

/-- Decimal representation of a natural number. -/
def natToStr (n : Nat) : Str := Nat.toDigits 10 n

/-- Python `str` of an integer. -/
def intToStr (i : Int) : Str := if i < 0 then '-' :: natToStr i.natAbs else natToStr i.natAbs

/-- Python falsy-or fallback for an optional integer inside the f-string
(both `None` and `0` print as `NULL`). -/
def pyOrNull : Option Int → Str
  | Option.none => S "NULL"
  | some n => if n = 0 then S "NULL" else intToStr n

/-- The schedule-id fragment: a subquery when both week and day are truthy,
`NULL` otherwise. -/
def scheduleStr (v : Vocab) : Str :=
  match v.week, v.day with
  | some w, some dy =>
    if w ≠ 0 ∧ dy ≠ 0 then
      S "(SELECT id FROM schedule WHERE week = " ++ intToStr w ++
      S " AND day = " ++ intToStr dy ++ S ")"
    else S "NULL"
  | _, _ => S "NULL"

/-- The parenthesised value tuple built for one vocabulary record by the
loop body of `generate_sql` (an f-string spanning three physical lines). -/
def valueOf (v : Vocab) : Str :=
  S "    (" ++ escape_sql_string v.level ++ S ", " ++ pyOrNull v.ref_no ++ S ", " ++
  escape_sql_string v.kanji ++ S ", " ++ escape_sql_string v.hiragana ++ S ", " ++
  escape_sql_string v.meaning_en ++ S ",\n     " ++
  escape_sql_string v.example_before ++ S ", " ++ escape_sql_string v.example_after ++ S ", " ++
  escape_sql_string v.hint ++ S ", " ++ escape_sql_string v.full_sentence ++ S ",\n     " ++
  pyOrNull v.page_no ++ S ", " ++ scheduleStr v ++ S ", " ++
  escape_sql_string v.word_type ++ S ", " ++ intToStr v.difficulty_level ++ S ")"

/-- The values-list loop of `generate_sql`: one appended tuple per record. -/
def valuesLoop (vs : List Vocab) : List Str := vs.foldl (fun acc v => acc ++ [valueOf v]) []

/-- The fixed lines appended to `sql_lines` before the VALUES block. -/
def sqlHeaderLines : List Str :=
  [S "-- =====================================================",
   S "-- JLPT Vocabulary Data Import (N1 + N2 + N3)",
   S "-- Generated by 02_excel_to_sql.py",
   S "-- example_before and example_after are AUTO-GENERATED",
   S "-- =====================================================",
   S "",
   S "-- Make sure to run 01_create_schema.sql first!",
   S "",
   S "BEGIN;",
   S "",
   S "-- Insert vocabulary data",
   S "INSERT INTO vocabulary (",
   S "    level, ref_no, kanji, hiragana, meaning_en,",
   S "    example_before, example_after, hint, full_sentence,",
   S "    page_no, schedule_id, word_type, difficulty_level",
   S ") VALUES"]

/-- The fixed lines appended to `sql_lines` after the VALUES block. -/
def sqlFooterLines : List Str :=
  [S ";",
   S "",
   S "COMMIT;",
   S "",
   S "-- Verify the import",
   S "SELECT level, COUNT(*) as count FROM vocabulary GROUP BY level ORDER BY level;",
   S "SELECT \x27Total:\x27 as level, COUNT(*) as count FROM vocabulary;"]

/-- Newline join of the SQL lines. -/
def joinNL (ls : List Str) : Str := List.intercalate (S "\n") ls

/-- The function `generate_sql` of the root copy: header lines, the comma-newline-joined values
list as a single element, footer lines, all joined by newlines. -/
def generate_sql (vs : List Vocab) : Str :=
  joinNL (sqlHeaderLines ++ [List.intercalate (S ",\n") (valuesLoop vs)] ++ sqlFooterLines)

/-- A sample vocabulary record (used to instantiate `generate_sql`). -/
def vocabExample : Vocab :=
  ⟨PyValue.str (S "N1"), some 1, PyValue.str (S "k"), PyValue.none, PyValue.none,
   PyValue.none, PyValue.none, PyValue.none, PyValue.none, Option.none, Option.none,
   Option.none, PyValue.none, 1⟩

/-! ### Lemmas about the string-search primitives -/

theorem strHasPrefix_iff (p s : Str) : strHasPrefix p s = true ↔ ∃ t, p ++ t = s := by
  induction p generalizing s with
  | nil => simp [strHasPrefix]
  | cons c p ih =>
    cases s with
    | nil => simp [strHasPrefix]
    | cons d s =>
      simp only [strHasPrefix, Bool.and_eq_true, beq_iff_eq, ih, List.cons_append,
        List.cons.injEq]
      constructor
      · rintro ⟨rfl, t, rfl⟩; exact ⟨t, rfl, rfl⟩
      · rintro ⟨t, rfl, rfl⟩; exact ⟨rfl, t, rfl⟩

theorem strHasPrefix_append (p t : Str) : strHasPrefix p (p ++ t) = true :=
  (strHasPrefix_iff p (p ++ t)).mpr ⟨t, rfl⟩

theorem strFind_eq_some (p s : Str) (i : Nat) (h : strFind p s = some i) :
    ∃ t, p ++ t = s.drop i := by
  induction s generalizing i with
  | nil =>
    unfold strFind at h
    split at h
    · rename_i hp
      obtain ⟨t, ht⟩ := (strHasPrefix_iff p []).mp hp
      cases h; exact ⟨t, ht⟩
    · cases h
  | cons c rest ih =>
    unfold strFind at h
    split at h
    · rename_i hp
      obtain ⟨t, ht⟩ := (strHasPrefix_iff p (c :: rest)).mp hp
      cases h; exact ⟨t, ht⟩
    · cases hfind : strFind p rest with
      | none => rw [hfind] at h; cases h
      | some j =>
        rw [hfind] at h
        simp only [Option.map_some'] at h
        obtain rfl : j + 1 = i := by exact Option.some.inj h
        simpa using ih j hfind

theorem strFind_split (p s : Str) (i : Nat) (h : strFind p s = some i) :
    s.take i ++ p ++ s.drop (i + p.length) = s := by
  obtain ⟨t, ht⟩ := strFind_eq_some p s i h
  have hdrop : s.drop (i + p.length) = t := by
    have : s.drop (i + p.length) = (s.drop i).drop p.length :=
      (List.drop_drop p.length i s).symm
    rw [this, ← ht, List.drop_left]
  rw [hdrop]
  calc s.take i ++ p ++ t = s.take i ++ (p ++ t) := by rw [List.append_assoc]
    _ = s.take i ++ s.drop i := by rw [ht]
    _ = s := List.take_append_drop i s

theorem strFind_min (p s : Str) (i : Nat) (h : strFind p s = some i) :
    ∀ j, j < i → strHasPrefix p (s.drop j) = false := by
  induction s generalizing i with
  | nil =>
    unfold strFind at h
    split at h
    · cases h; omega
    · cases h
  | cons c rest ih =>
    unfold strFind at h
    split at h
    · cases h; omega
    · rename_i hp
      cases hfind : strFind p rest with
      | none => rw [hfind] at h; cases h
      | some j' =>
        rw [hfind] at h
        simp only [Option.map_some'] at h
        obtain rfl : j' + 1 = i := Option.some.inj h
        intro j hj
        cases j with
        | zero => simpa using Bool.eq_false_iff.mpr (by simpa using hp)
        | succ j => exact ih j' hfind j (by omega)

theorem occursIn_iff_strFind (p s : Str) : occursIn p s ↔ (strFind p s).isSome = true := by
  constructor
  · rintro ⟨u, v, huv⟩
    induction u generalizing s with
    | nil =>
      simp only [List.nil_append] at huv
      cases s with
      | nil =>
        have : p = [] := by cases p <;> simp_all
        subst this; simp [strFind, strHasPrefix]
      | cons c rest =>
        have hp : strHasPrefix p (c :: rest) = true :=
          (strHasPrefix_iff _ _).mpr ⟨v, huv⟩
        simp [strFind, hp]
    | cons x u ih =>
      cases s with
      | nil => simp at huv
      | cons c rest =>
        simp only [List.cons_append, List.cons.injEq] at huv
        obtain ⟨rfl, hrest⟩ := huv
        unfold strFind
        split
        · simp
        · simpa using ih rest hrest
  · intro h
    obtain ⟨i, hi⟩ := Option.isSome_iff_exists.mp h
    obtain ⟨t, ht⟩ := strFind_eq_some p s i hi
    exact ⟨s.take i, t, by rw [List.append_assoc, ht, List.take_append_drop]⟩

/-! ### Lemmas about the pattern-matching loops -/

theorem tryPatterns_eq_some (s : Str) (l : List Str) (b m a : Str)
    (h : tryPatterns s l = some (b, m, a)) :
    ∃ i, m ∈ l ∧ m ≠ [] ∧ strFind m s = some i ∧ b = s.take i ∧ a = s.drop (i + m.length) := by
  induction l with
  | nil => cases h
  | cons p rest ih =>
    unfold tryPatterns at h
    split at h
    · rename_i hc
      obtain ⟨i, hi⟩ := Option.isSome_iff_exists.mp hc.2
      simp only [Option.some.injEq, Prod.mk.injEq] at h
      obtain ⟨hb, hm, ha⟩ := h
      subst hm
      refine ⟨i, List.mem_cons_self _ _, hc.1, hi, ?_, ?_⟩
      · rw [← hb, hi]; rfl
      · rw [← ha, hi]; rfl
    · obtain ⟨i, hmem, hne, hfind, hb, ha⟩ := ih h
      exact ⟨i, List.mem_cons_of_mem _ hmem, hne, hfind, hb, ha⟩

theorem tryPatterns_first (s : Str) (l : List Str) (b m a : Str)
    (h : tryPatterns s l = some (b, m, a)) :
    ∃ l₁ l₂, l = l₁ ++ m :: l₂ ∧ ∀ q ∈ l₁, q = [] ∨ (strFind q s).isSome = false := by
  induction l with
  | nil => cases h
  | cons p rest ih =>
    unfold tryPatterns at h
    split at h
    · simp only [Option.some.injEq, Prod.mk.injEq] at h
      obtain ⟨_, hm, _⟩ := h
      subst hm
      exact ⟨[], rest, rfl, by simp⟩
    · rename_i hc
      obtain ⟨l₁, l₂, hl, hall⟩ := ih h
      refine ⟨p :: l₁, l₂, by simp [hl], ?_⟩
      intro q hq
      rcases List.mem_cons.mp hq with rfl | hq'
      · by_cases hqe : q = []
        · exact Or.inl hqe
        · right
          by_cases hf : (strFind q s).isSome = true
          · exact absurd ⟨hqe, hf⟩ hc
          · simpa using hf
      · exact hall q hq'

theorem tryPatterns_isSome_iff (s : Str) (l : List Str) :
    (tryPatterns s l).isSome = true ↔ ∃ p, p ∈ l ∧ p ≠ [] ∧ (strFind p s).isSome = true := by
  induction l with
  | nil => simp [tryPatterns]
  | cons p rest ih =>
    unfold tryPatterns
    split
    · rename_i hc
      simp only [Option.isSome_some, true_iff]
      exact ⟨p, List.mem_cons_self _ _, hc.1, hc.2⟩
    · rename_i hc
      rw [ih]
      constructor
      · rintro ⟨q, hq, hne, hf⟩
        exact ⟨q, List.mem_cons_of_mem _ hq, hne, hf⟩
      · rintro ⟨q, hq, hne, hf⟩
        rcases List.mem_cons.mp hq with rfl | hq'
        · exact absurd ⟨hne, hf⟩ hc
        · exact ⟨q, hq', hne, hf⟩

theorem tryPairs_eq_some (s : Str) (l : List (Str × Str)) (b m a : Str)
    (h : tryPairs s l = some (b, m, a)) :
    ∃ i d2, (m, d2) ∈ l ∧ m ≠ [] ∧ strFind m s = some i ∧ b = s.take i ∧
      a = d2 ++ s.drop (i + m.length) := by
  induction l with
  | nil => cases h
  | cons pr rest ih =>
    unfold tryPairs at h
    split at h
    · rename_i hc
      obtain ⟨i, hi⟩ := Option.isSome_iff_exists.mp hc.2
      simp only [Option.some.injEq, Prod.mk.injEq] at h
      obtain ⟨hb, hm, ha⟩ := h
      subst hm
      refine ⟨i, pr.2, List.mem_cons_self _ _, hc.1, hi, ?_, ?_⟩
      · rw [← hb, hi]; rfl
      · rw [← ha, hi]
        by_cases hd : pr.2 = [] <;> simp [hd]
    · obtain ⟨i, d2, hmem, hne, hfind, hb, ha⟩ := ih h
      exact ⟨i, d2, List.mem_cons_of_mem _ hmem, hne, hfind, hb, ha⟩

/-! ### Lemmas about the de-duplication pass -/

theorem mem_uniqueFilter (l : List Str) :
    ∀ seen p, p ∈ uniqueFilter seen l ↔ p ∈ l ∧ p ≠ [] ∧ p ∉ seen := by
  induction l with
  | nil => intro seen p; simp [uniqueFilter]
  | cons q rest ih =>
    intro seen p
    unfold uniqueFilter
    split
    · rename_i hq
      rw [List.mem_cons, ih]
      constructor
      · rintro (rfl | ⟨hp, hne, hnotin⟩)
        · exact ⟨List.mem_cons_self _ _, hq.1, hq.2⟩
        · refine ⟨List.mem_cons_of_mem _ hp, hne, ?_⟩
          intro hmem; exact hnotin (List.mem_cons_of_mem _ hmem)
      · rintro ⟨hp, hne, hnotin⟩
        rcases List.mem_cons.mp hp with rfl | hp'
        · exact Or.inl rfl
        · by_cases hpq : p = q
          · exact Or.inl hpq
          · exact Or.inr ⟨hp', hne, by simp [hpq, hnotin]⟩
    · rename_i hq
      rw [ih]
      constructor
      · rintro ⟨hp, hne, hnotin⟩
        exact ⟨List.mem_cons_of_mem _ hp, hne, hnotin⟩
      · rintro ⟨hp, hne, hnotin⟩
        rcases List.mem_cons.mp hp with rfl | hp'
        · exfalso
          rcases not_and_or.mp hq with h1 | h2
          · exact h1 (by simpa using hne)
          · exact hnotin (by simpa using not_not.mp (by simpa using h2))
        · exact ⟨hp', hne, hnotin⟩

theorem uniqueFilter_nodup (l : List Str) : ∀ seen, (uniqueFilter seen l).Nodup := by
  induction l with
  | nil => intro seen; simp [uniqueFilter]
  | cons q rest ih =>
    intro seen
    unfold uniqueFilter
    split
    · refine List.nodup_cons.mpr ⟨?_, ih _⟩
      intro hmem
      exact ((mem_uniqueFilter rest _ q).mp hmem).2.2 (List.mem_cons_self _ _)
    · exact ih _

/-! ### The pattern-building stages only ever append -/

theorem foldl_append_only {α : Type} (f : List Str → α → List Str)
    (hf : ∀ acc x, ∃ t, f acc x = acc ++ t) :
    ∀ (L : List α) (acc : List Str), ∃ t, L.foldl f acc = acc ++ t := by
  intro L
  induction L with
  | nil => intro acc; exact ⟨[], by simp⟩
  | cons x rest ih =>
    intro acc
    obtain ⟨t₁, ht₁⟩ := hf acc x
    obtain ⟨t₂, ht₂⟩ := ih (f acc x)
    exact ⟨t₁ ++ t₂, by rw [List.foldl_cons, ht₂, ht₁, List.append_assoc]⟩

theorem verbStep_append_only (clean : Str) (acc : List Str) (ec : Str × List Str) :
    ∃ t, verbStep clean acc ec = acc ++ t := by
  unfold verbStep
  split
  · dsimp only
    split
    · exact ⟨_, by rw [List.append_assoc]⟩
    · exact ⟨[], by simp⟩
  · exact ⟨[], by simp⟩

theorem iAdjStep_append_only (clean : Str) (acc : List Str) :
    ∃ t, iAdjStep clean acc = acc ++ t := by
  unfold iAdjStep
  split
  · exact ⟨_, by rw [List.append_assoc]⟩
  · exact ⟨[], by simp⟩

theorem naStep_append_only (clean : Str) (acc : List Str) :
    ∃ t, naStep clean acc = acc ++ t := by
  unfold naStep
  split
  · exact ⟨_, rfl⟩
  · exact ⟨[], by simp⟩

theorem naParenStep_append_only (clean : Str) (acc : List Str) :
    ∃ t, naParenStep clean acc = acc ++ t := by
  unfold naParenStep
  split
  · exact ⟨_, rfl⟩
  · exact ⟨[], by simp⟩

theorem particleStep_append_only (clean : Str) (acc : List Str) (c : Char) :
    ∃ t, particleStep clean acc c = acc ++ t := by
  unfold particleStep
  split
  · exact ⟨_, by rw [List.append_assoc]⟩
  · exact ⟨[], by simp⟩

theorem rawPatternsWith_extends (vt : List (Str × List Str)) (kanji : Str) :
    ∃ t, rawPatternsWith vt kanji =
      (if cleanWord kanji ≠ kanji then [kanji, cleanWord kanji] else [kanji]) ++ t := by
  unfold rawPatternsWith
  obtain ⟨t₁, ht₁⟩ := foldl_append_only (verbStep (cleanWord kanji))
    (verbStep_append_only (cleanWord kanji)) vt
    (if cleanWord kanji ≠ kanji then [kanji, cleanWord kanji] else [kanji])
  obtain ⟨t₂, ht₂⟩ := iAdjStep_append_only (cleanWord kanji) _
  obtain ⟨t₃, ht₃⟩ := naStep_append_only (cleanWord kanji) _
  obtain ⟨t₄, ht₄⟩ := naParenStep_append_only (cleanWord kanji) _
  obtain ⟨t₅, ht₅⟩ := foldl_append_only (particleStep (cleanWord kanji))
    (particleStep_append_only (cleanWord kanji)) particleChars _
  rw [ht₅, ht₄, ht₃, ht₂, ht₁]
  exact ⟨t₁ ++ t₂ ++ t₃ ++ t₄ ++ t₅, by simp [List.append_assoc]⟩

theorem rawPatternsWith_cons (vt : List (Str × List Str)) (kanji : Str) :
    ∃ t, rawPatternsWith vt kanji = kanji :: t := by
  obtain ⟨t, ht⟩ := rawPatternsWith_extends vt kanji
  by_cases hc : cleanWord kanji ≠ kanji
  · exact ⟨cleanWord kanji :: t, by rw [ht, if_pos hc]; rfl⟩
  · exact ⟨t, by rw [ht, if_neg hc]; rfl⟩

/-! ### Patterns returned by `get_stem_patterns` are non-empty -/

theorem mem_gsp_ne_nil (k p : Str) (hp : p ∈ get_stem_patterns k) : p ≠ [] := by
  unfold get_stem_patterns at hp
  exact ((mem_uniqueFilter _ _ _).mp hp).2.1

theorem mem_gsp_test_ne_nil (k p : Str) (hp : p ∈ get_stem_patterns_test k) : p ≠ [] := by
  unfold get_stem_patterns_test at hp
  exact ((mem_uniqueFilter _ _ _).mp hp).2.1

/-- C1 (amended): when `find_word_in_sentence` succeeds, `before ++ matched
++ after` reconstructs the *stripped* input sentence in the root copy (which
strips its arguments), and the raw input sentence in the `SQL_test` copy
(which does not strip). -/
theorem find_split_reconstruction (kanji sentence b m a : Str) :
    (find_word_in_sentence kanji sentence = some (b, m, a) → b ++ m ++ a = pyStrip sentence)
    ∧ (find_word_in_sentence_test kanji sentence = some (b, m, a) → b ++ m ++ a = sentence) := by
  constructor
  · intro h
    unfold find_word_in_sentence at h
    split at h
    · cases h
    · obtain ⟨i, _, _, hfind, hb, ha⟩ := tryPatterns_eq_some _ _ _ _ _ h
      rw [hb, ha]
      exact strFind_split m (pyStrip sentence) i hfind
  · intro h
    unfold find_word_in_sentence_test at h
    split at h
    · cases h
    · obtain ⟨i, _, _, hfind, hb, ha⟩ := tryPatterns_eq_some _ _ _ _ _ h
      rw [hb, ha]
      exact strFind_split m sentence i hfind

/-- C1 (counterexample): on the word `a` and the sentence `" a"` (leading
space) the root `find_word_in_sentence` succeeds, yet `before ++ matched ++
after` is `"a"`, not the input sentence `" a"`. -/
theorem find_split_reconstruction_cex :
    find_word_in_sentence (S "a") (S " a") = some ([], S "a", [])
    ∧ ([] : Str) ++ S "a" ++ [] ≠ S " a" := by
  constructor
  · rfl
  · decide

/-- Witness instantiating `find_split_reconstruction` at a concrete input. -/
theorem find_split_reconstruction_witness :
    S "x" ++ S "ab" ++ ([] : Str) = pyStrip (S " xab") :=
  (find_split_reconstruction (S "ab") (S " xab") (S "x") (S "ab") []).1 (by rfl)

/-- C8 (confirmed): the returned `before` fragment never contains the
matched pattern — the split happens at the leftmost occurrence. -/
theorem find_leftmost_split (kanji sentence b m a : Str)
    (h : find_word_in_sentence kanji sentence = some (b, m, a)) : ¬ occursIn m b := by
  unfold find_word_in_sentence at h
  split at h
  · cases h
  · obtain ⟨i, _, hm, hfind, hb, _⟩ := tryPatterns_eq_some _ _ _ _ _ h
    rintro ⟨u, v, huv⟩
    rw [hb] at huv
    have h1 : ((pyStrip sentence).take i).length ≤ i := by
      rw [List.length_take]; exact Nat.min_le_left _ _
    have h2 : u.length + m.length + v.length = ((pyStrip sentence).take i).length := by
      rw [← huv]; simp; omega
    have hmlen : 0 < m.length := List.length_pos.mpr hm
    have hui : u.length < i := by omega
    have hs : pyStrip sentence = u ++ (m ++ (v ++ (pyStrip sentence).drop i)) := by
      conv_lhs => rw [← List.take_append_drop i (pyStrip sentence)]
      rw [← huv]; simp [List.append_assoc]
    have hdrop : (pyStrip sentence).drop u.length = m ++ (v ++ (pyStrip sentence).drop i) := by
      conv_lhs => rw [hs]
      exact List.drop_left _ _
    have hpre : strHasPrefix m ((pyStrip sentence).drop u.length) = true := by
      rw [hdrop]; exact strHasPrefix_append m _
    have hmin := strFind_min m (pyStrip sentence) i hfind u.length hui
    rw [hpre] at hmin
    cases hmin

/-- Witness instantiating `find_leftmost_split` at a concrete input. -/
theorem find_leftmost_split_witness : ¬ occursIn (S "ab") (S "x") :=
  find_leftmost_split (S "ab") (S "xab") (S "x") (S "ab") [] (by rfl)

/-- C4 (amended): the root `find_word_in_sentence` succeeds iff both raw
inputs are non-empty and some pattern generated from the *stripped* word
occurs in the *stripped* sentence; in every other case it fails. -/
theorem find_success_iff (kanji sentence : Str) :
    (find_word_in_sentence kanji sentence).isSome = true ↔
      (kanji ≠ [] ∧ sentence ≠ [] ∧
        ∃ p, p ∈ get_stem_patterns (pyStrip kanji) ∧ occursIn p (pyStrip sentence)) := by
  unfold find_word_in_sentence
  split
  · rename_i hc
    simp only [Option.isSome_none, Bool.false_eq_true, false_iff]
    rintro ⟨hk, hs, -⟩
    rcases hc with hc | hc
    · exact hs hc
    · exact hk hc
  · rename_i hc
    push_neg at hc
    obtain ⟨hs, hk⟩ := hc
    rw [tryPatterns_isSome_iff]
    constructor
    · rintro ⟨p, hp, hne, hf⟩
      rw [List.mem_insertionSort] at hp
      exact ⟨hk, hs, p, hp, (occursIn_iff_strFind _ _).mpr hf⟩
    · rintro ⟨-, -, p, hp, hocc⟩
      refine ⟨p, ?_, mem_gsp_ne_nil _ _ hp, (occursIn_iff_strFind _ _).mp hocc⟩
      rw [List.mem_insertionSort]
      exact hp

/-- C4 (counterexample): with the word `" a＊b"` and the sentence `"a＊b"`,
the function succeeds although no pattern generated from the raw word
occurs in the sentence (the claim predicts failure). -/
theorem find_success_iff_cex :
    find_word_in_sentence (S " a＊b") (S "a＊b") = some ([], S "a＊b", [])
    ∧ ∀ p ∈ get_stem_patterns (S " a＊b"), ¬ occursIn p (S "a＊b") := by
  constructor
  · rfl
  · simp only [occursIn_iff_strFind]
    decide

/-- C2 (amended): the matched pattern has maximal length among the patterns
generated from the *stripped* word that occur in the *stripped* sentence. -/
theorem find_longest_match (kanji sentence b m a : Str)
    (h : find_word_in_sentence kanji sentence = some (b, m, a)) :
    ∀ p, p ∈ get_stem_patterns (pyStrip kanji) → occursIn p (pyStrip sentence) →
      p.length ≤ m.length := by
  unfold find_word_in_sentence at h
  split at h
  · cases h
  · intro p hp hocc
    obtain ⟨l₁, l₂, hl, hall⟩ := tryPatterns_first _ _ _ _ _ h
    have hsorted : List.Pairwise lenDesc (l₁ ++ m :: l₂) := by
      rw [← hl]
      exact List.sorted_insertionSort lenDesc _
    have hpmem : p ∈ l₁ ++ m :: l₂ := by
      rw [← hl, List.mem_insertionSort]
      exact hp
    have hpne : p ≠ [] := mem_gsp_ne_nil _ _ hp
    have hpf : (strFind p (pyStrip sentence)).isSome = true := (occursIn_iff_strFind _ _).mp hocc
    rcases List.mem_append.mp hpmem with h1 | h2
    · rcases hall p h1 with rfl | hfalse
      · exact absurd rfl hpne
      · rw [hpf] at hfalse; cases hfalse
    · rcases List.mem_cons.mp h2 with rfl | h3
      · exact Nat.le_refl _
      · exact (List.pairwise_cons.mp (List.pairwise_append.mp hsorted).2.1).1 p h3

/-- C2 (counterexample): for the word `" a"` (leading space) and the
sentence `"b a"`, the function matches the 1-character pattern `"a"`
although the 2-character pattern `" a"` from `get_stem_patterns(" a")`
occurs in the sentence. -/
theorem find_longest_match_cex :
    find_word_in_sentence (S " a") (S "b a") = some (S "b ", S "a", [])
    ∧ S " a" ∈ get_stem_patterns (S " a")
    ∧ occursIn (S " a") (S "b a")
    ∧ ¬ (S " a").length ≤ (S "a").length := by
  refine ⟨by rfl, by decide, ⟨S "b", [], by decide⟩, by decide⟩

/-- Witness instantiating `find_longest_match` at a concrete input. -/
theorem find_longest_match_witness : (S "ab").length ≤ (S "ab").length :=
  find_longest_match (S "ab") (S "xab") (S "x") (S "ab") [] (by rfl)
    (S "ab") (by decide) ⟨S "x", [], by decide⟩

/-! ### Invariants of the generated pattern lists (C10) -/

theorem uniqueFilter_cons (k : Str) (t : List Str) (hk : k ≠ []) :
    uniqueFilter [] (k :: t) = k :: uniqueFilter [k] t := by
  rw [uniqueFilter, if_pos ⟨hk, by simp⟩]

/-- C10 (confirmed): for a non-empty word both copies of
`get_stem_patterns` return a duplicate-free list of non-empty patterns
whose first element is the word itself. -/
theorem gsp_pattern_list_invariants (k : Str) (hk : k ≠ []) :
    ((get_stem_patterns k).Nodup ∧ [] ∉ get_stem_patterns k
      ∧ (get_stem_patterns k).head? = some k)
    ∧ ((get_stem_patterns_test k).Nodup ∧ [] ∉ get_stem_patterns_test k
      ∧ (get_stem_patterns_test k).head? = some k) := by
  obtain ⟨t1, ht1⟩ := rawPatternsWith_cons verbTableRoot k
  obtain ⟨t2, ht2⟩ := rawPatternsWith_cons verbTableTest k
  refine ⟨⟨uniqueFilter_nodup _ _, ?_, ?_⟩, ⟨uniqueFilter_nodup _ _, ?_, ?_⟩⟩
  · intro hmem; exact mem_gsp_ne_nil k [] hmem rfl
  · unfold get_stem_patterns
    rw [ht1, uniqueFilter_cons _ _ hk]
    rfl
  · intro hmem; exact mem_gsp_test_ne_nil k [] hmem rfl
  · unfold get_stem_patterns_test
    rw [ht2, uniqueFilter_cons _ _ hk]
    rfl

/-- Witness instantiating `gsp_pattern_list_invariants` at a concrete word. -/
theorem gsp_pattern_list_invariants_witness :
    ((get_stem_patterns (S "a")).Nodup ∧ [] ∉ get_stem_patterns (S "a")
      ∧ (get_stem_patterns (S "a")).head? = some (S "a"))
    ∧ ((get_stem_patterns_test (S "a")).Nodup ∧ [] ∉ get_stem_patterns_test (S "a")
      ∧ (get_stem_patterns_test (S "a")).head? = some (S "a")) :=
  gsp_pattern_list_invariants (S "a") (by decide)

/-! ### Completeness of the verb-ending expansion (C7) -/

theorem pyEndsWith_nil_false (e : Str) (he : e ≠ []) : pyEndsWith [] e = false := by
  unfold pyEndsWith
  rcases hr : e.reverse with _ | ⟨c, t⟩
  · exact absurd (List.reverse_eq_nil_iff.mp hr) he
  · rfl

theorem mem_after_stages (clean : Str) (acc : List Str) (p : Str) (hp : p ∈ acc) :
    p ∈ particleChars.foldl (particleStep clean)
      (naParenStep clean (naStep clean (iAdjStep clean acc))) := by
  obtain ⟨t2, h2⟩ := iAdjStep_append_only clean acc
  obtain ⟨t3, h3⟩ := naStep_append_only clean (iAdjStep clean acc)
  obtain ⟨t4, h4⟩ := naParenStep_append_only clean (naStep clean (iAdjStep clean acc))
  obtain ⟨t5, h5⟩ := foldl_append_only (particleStep clean)
    (particleStep_append_only clean) particleChars
    (naParenStep clean (naStep clean (iAdjStep clean acc)))
  rw [h5, h4, h3, h2]
  simp [hp]

/-- C7 (confirmed): when the cleaned word ends in one of the nine tabulated
verb endings with a non-empty stem, `get_stem_patterns` contains the stem
joined with every tabulated conjugation suffix, the bare stem, and the
original word. -/
theorem gsp_verb_patterns_complete (kanji e : Str) (cs : List Str)
    (he : (e, cs) ∈ verbTableRoot)
    (hend : pyEndsWith (cleanWord kanji) e = true)
    (hstem : (cleanWord kanji).take ((cleanWord kanji).length - e.length) ≠ []) :
    (∀ conj ∈ cs,
      (cleanWord kanji).take ((cleanWord kanji).length - e.length) ++ conj
        ∈ get_stem_patterns kanji)
    ∧ (cleanWord kanji).take ((cleanWord kanji).length - e.length) ∈ get_stem_patterns kanji
    ∧ kanji ∈ get_stem_patterns kanji := by
  have htable : ∀ pr ∈ verbTableRoot, pr.1 ≠ ([] : Str) := by decide
  have he_ne : e ≠ [] := htable (e, cs) he
  have hclean_ne : cleanWord kanji ≠ [] := by
    intro h0
    rw [h0, pyEndsWith_nil_false e he_ne] at hend
    cases hend
  have hk_ne : kanji ≠ [] := by
    intro h0
    apply hclean_ne
    rw [h0]
    rfl
  obtain ⟨T₁, T₂, hT⟩ := List.append_of_mem he
  have hraw : ∀ p, p ∈ verbStep (cleanWord kanji)
      (T₁.foldl (verbStep (cleanWord kanji))
        (if cleanWord kanji ≠ kanji then [kanji, cleanWord kanji] else [kanji])) (e, cs) →
      p ∈ rawPatternsWith verbTableRoot kanji := by
    intro p hp
    unfold rawPatternsWith
    dsimp only
    rw [hT, List.foldl_append, List.foldl_cons]
    apply mem_after_stages
    obtain ⟨t, ht⟩ := foldl_append_only (verbStep (cleanWord kanji))
      (verbStep_append_only (cleanWord kanji)) T₂ _
    rw [ht]
    exact List.mem_append_left _ hp
  have hstep : verbStep (cleanWord kanji)
      (T₁.foldl (verbStep (cleanWord kanji))
        (if cleanWord kanji ≠ kanji then [kanji, cleanWord kanji] else [kanji])) (e, cs)
      = (T₁.foldl (verbStep (cleanWord kanji))
          (if cleanWord kanji ≠ kanji then [kanji, cleanWord kanji] else [kanji]))
        ++ cs.map (fun conj => (cleanWord kanji).take ((cleanWord kanji).length - e.length) ++ conj)
        ++ [(cleanWord kanji).take ((cleanWord kanji).length - e.length)] := by
    unfold verbStep
    rw [if_pos hend]
    dsimp only
    rw [if_pos hstem]
  refine ⟨?_, ?_, ?_⟩
  · intro conj hconj
    have hmem : (cleanWord kanji).take ((cleanWord kanji).length - e.length) ++ conj
        ∈ verbStep (cleanWord kanji)
          (T₁.foldl (verbStep (cleanWord kanji))
            (if cleanWord kanji ≠ kanji then [kanji, cleanWord kanji] else [kanji])) (e, cs) := by
      rw [hstep]
      exact List.mem_append_left _ (List.mem_append_right _ (List.mem_map_of_mem _ hconj))
    have hmemraw := hraw _ hmem
    unfold get_stem_patterns
    rw [mem_uniqueFilter]
    exact ⟨hmemraw, by simp [hstem], by simp⟩
  · have hmem : (cleanWord kanji).take ((cleanWord kanji).length - e.length)
        ∈ verbStep (cleanWord kanji)
          (T₁.foldl (verbStep (cleanWord kanji))
            (if cleanWord kanji ≠ kanji then [kanji, cleanWord kanji] else [kanji])) (e, cs) := by
      rw [hstep]
      exact List.mem_append_right _ (List.mem_singleton.mpr rfl)
    have hmemraw := hraw _ hmem
    unfold get_stem_patterns
    rw [mem_uniqueFilter]
    exact ⟨hmemraw, hstem, by simp⟩
  · obtain ⟨t, ht⟩ := rawPatternsWith_cons verbTableRoot kanji
    unfold get_stem_patterns
    rw [ht, uniqueFilter_cons _ _ hk_ne]
    exact List.mem_cons_self _ _

/-- Witness instantiating `gsp_verb_patterns_complete` on the む-verb `aむ`. -/
theorem gsp_verb_patterns_complete_witness :
    (∀ conj ∈ [S "ま", S "み", S "んで", S "んだ", S "まない", S "みます", S "めば", S "もう",
               S "まず", S "みたい", S "んだら", S "んだり", S "め", S "まなかった"],
      (cleanWord (S "aむ")).take ((cleanWord (S "aむ")).length - (S "む").length) ++ conj
        ∈ get_stem_patterns (S "aむ"))
    ∧ (cleanWord (S "aむ")).take ((cleanWord (S "aむ")).length - (S "む").length)
        ∈ get_stem_patterns (S "aむ")
    ∧ S "aむ" ∈ get_stem_patterns (S "aむ") :=
  gsp_verb_patterns_complete (S "aむ") (S "む")
    [S "ま", S "み", S "んで", S "んだ", S "まない", S "みます", S "めば", S "もう",
     S "まず", S "みたい", S "んだら", S "んだり", S "め", S "まなかった"]
    (by decide) (by decide) (by decide)

/-! ### Agreement of the root and `SQL_test` copies (C5) -/

theorem verbStep_of_no_match (clean : Str) (acc : List Str) (e : Str) (L : List Str)
    (h : pyEndsWith clean e = false) : verbStep clean acc (e, L) = acc := by
  unfold verbStep
  simp [h]

theorem foldl_verb_tables_eq (clean : Str) (h : pyEndsWith clean (S "る") = false)
    (acc : List Str) :
    verbTableRoot.foldl (verbStep clean) acc = verbTableTest.foldl (verbStep clean) acc := by
  unfold verbTableRoot verbTableTest
  conv_lhs => rw [List.foldl_cons, verbStep_of_no_match _ _ _ _ h]
  conv_rhs => rw [List.foldl_cons, verbStep_of_no_match _ _ _ _ h]

theorem gsp_copies_eq (kanji : Str) (h : pyEndsWith (cleanWord kanji) (S "る") = false) :
    get_stem_patterns kanji = get_stem_patterns_test kanji := by
  unfold get_stem_patterns get_stem_patterns_test
  congr 1
  unfold rawPatternsWith
  dsimp only
  rw [foldl_verb_tables_eq (cleanWord kanji) h]

/-- C5 (amended): the root and `SQL_test` copies of `find_word_in_sentence`
return equal triples whenever neither input carries surrounding whitespace
(so stripping does nothing) and the cleaned word does not end in る (so the
extra ません suffix pattern of the root copy cannot arise).  The two copies
do differ on inputs outside these conditions. -/
theorem find_copies_agree (kanji sentence : Str)
    (hk : pyStrip kanji = kanji) (hs : pyStrip sentence = sentence)
    (hr : pyEndsWith (cleanWord kanji) (S "る") = false) :
    find_word_in_sentence kanji sentence = find_word_in_sentence_test kanji sentence := by
  unfold find_word_in_sentence find_word_in_sentence_test
  rw [hk, hs, gsp_copies_eq kanji hr]

/-- C5 (counterexample): on the word `aる` and the sentence `" aません"`
(leading space) the two copies disagree: the root copy strips the sentence
and matches the ません form, the `SQL_test` copy matches only the bare stem. -/
theorem find_copies_agree_cex :
    find_word_in_sentence (S "aる") (S " aません") = some ([], S "aません", [])
    ∧ find_word_in_sentence_test (S "aる") (S " aません") = some (S " ", S "a", S "ません")
    ∧ find_word_in_sentence (S "aる") (S " aません")
        ≠ find_word_in_sentence_test (S "aる") (S " aません") := by
  refine ⟨by rfl, by rfl, by decide⟩

/-- Witness instantiating `find_copies_agree` at a concrete input. -/
theorem find_copies_agree_witness :
    find_word_in_sentence (S "ab") (S "xab") = find_word_in_sentence_test (S "ab") (S "xab") :=
  find_copies_agree (S "ab") (S "xab") (by decide) (by decide) (by decide)

/-! ### First components in `get_stem_and_conjugations` are pairwise distinct -/

theorem fsts_append (l : List (Str × Str)) (pr : Str × Str) :
    fsts (l ++ [pr]) = fsts l ++ [pr.1] := by
  simp [fsts]

theorem nodup_fsts_append_notmem (acc : List (Str × Str)) (pr : Str × Str)
    (h : (fsts acc).Nodup) (hn : pr.1 ∉ fsts acc) : (fsts (acc ++ [pr])).Nodup := by
  rw [fsts_append, List.nodup_append]
  refine ⟨h, List.nodup_singleton _, ?_⟩
  intro x hx hmem
  rw [List.mem_singleton] at hmem
  subst hmem
  exact hn hx

theorem nodup_fsts_addGuarded (acc : List (Str × Str)) (pr : Str × Str)
    (h : (fsts acc).Nodup) : (fsts (addGuarded acc pr)).Nodup := by
  unfold addGuarded
  split
  · rename_i hc
    exact nodup_fsts_append_notmem acc pr h hc.2
  · exact h

theorem foldl_preserves {α β : Type} (P : β → Prop) (f : β → α → β)
    (hf : ∀ b x, P b → P (f b x)) : ∀ (L : List α) (b : β), P b → P (L.foldl f b) := by
  intro L
  induction L with
  | nil => intro b hb; exact hb
  | cons x rest ih => intro b hb; exact ih (f b x) (hf b x hb)

theorem nodup_fsts_gscVerbStep (clean : Str) (acc : List (Str × Str))
    (ec : Str × List (Str × Str)) (h : (fsts acc).Nodup) :
    (fsts (gscVerbStep clean acc ec)).Nodup := by
  unfold gscVerbStep
  split
  · dsimp only
    split
    · split
      · rename_i hnot
        refine nodup_fsts_append_notmem _ _ ?_ hnot
        exact foldl_preserves (fun b => (fsts b).Nodup) _
          (fun b sd hb => nodup_fsts_addGuarded _ _ hb) ec.2 acc h
      · exact foldl_preserves (fun b => (fsts b).Nodup) _
          (fun b sd hb => nodup_fsts_addGuarded _ _ hb) ec.2 acc h
    · exact h
  · exact h

theorem nodup_fsts_gscIAdjStep (clean : Str) (acc : List (Str × Str))
    (h : (fsts acc).Nodup) : (fsts (gscIAdjStep clean acc)).Nodup := by
  unfold gscIAdjStep
  split
  · dsimp only
    split
    · rename_i hnot
      refine nodup_fsts_append_notmem _ _ ?_ hnot
      exact foldl_preserves (fun b => (fsts b).Nodup) _
        (fun b sd hb => nodup_fsts_addGuarded _ _ hb) iAdjMapProc acc h
    · exact foldl_preserves (fun b => (fsts b).Nodup) _
        (fun b sd hb => nodup_fsts_addGuarded _ _ hb) iAdjMapProc acc h
  · exact h

theorem nodup_fsts_gscNaStep (clean : Str) (acc : List (Str × Str))
    (h : (fsts acc).Nodup) : (fsts (gscNaStep clean acc)).Nodup := by
  unfold gscNaStep
  split
  · exact foldl_preserves (fun b => (fsts b).Nodup) _
      (fun b sd hb => nodup_fsts_addGuarded _ _ hb) naMapProc acc h
  · exact h

theorem nodup_fsts_gscNaParenStep (clean : Str) (acc : List (Str × Str))
    (h : (fsts acc).Nodup) : (fsts (gscNaParenStep clean acc)).Nodup := by
  unfold gscNaParenStep
  split
  · exact foldl_preserves (fun b => (fsts b).Nodup) _
      (fun b sd hb => nodup_fsts_addGuarded _ _ hb) naMapProc acc h
  · exact h

theorem nodup_fsts_gscParticleStep (clean : Str) (acc : List (Str × Str)) (c : Char)
    (h : (fsts acc).Nodup) : (fsts (gscParticleStep clean acc c)).Nodup := by
  unfold gscParticleStep
  split
  · exact foldl_preserves (fun b => (fsts b).Nodup) _
      (fun b part hb => nodup_fsts_addGuarded _ _ hb) (clean.splitOn c) acc h
  · exact h

theorem nodup_fsts_gsc (kanji : Str) :
    (fsts (get_stem_and_conjugations kanji)).Nodup := by
  unfold get_stem_and_conjugations
  dsimp only
  apply foldl_preserves (fun b => (fsts b).Nodup) _
    (fun b c hb => nodup_fsts_gscParticleStep _ b c hb)
  apply nodup_fsts_gscNaParenStep
  apply nodup_fsts_gscNaStep
  apply nodup_fsts_gscIAdjStep
  apply foldl_preserves (fun b => (fsts b).Nodup) _
    (fun b x hb => nodup_fsts_gscVerbStep _ b x hb)
  split
  · rename_i hne
    simp [fsts, Ne.symm hne]
  · simp [fsts]

theorem eq_snd_of_fsts_nodup (l : List (Str × Str)) (h : (fsts l).Nodup)
    (m x y : Str) (hx : (m, x) ∈ l) (hy : (m, y) ∈ l) : x = y := by
  induction l with
  | nil => cases hx
  | cons pr rest ih =>
    have h' : pr.1 ∉ fsts rest ∧ (fsts rest).Nodup := by
      simpa [fsts] using h
    rcases List.mem_cons.mp hx with hx1 | hx2 <;> rcases List.mem_cons.mp hy with hy1 | hy2
    · rw [← hy1] at hx1
      exact (Prod.ext_iff.mp hx1).2
    · exfalso
      apply h'.1
      have : pr.1 = m := by rw [← hx1]
      rw [this]
      exact List.mem_map_of_mem Prod.fst hy2
    · exfalso
      apply h'.1
      have : pr.1 = m := by rw [← hy1]
      rw [this]
      exact List.mem_map_of_mem Prod.fst hx2
    · exact ih h'.2 hx2 hy2

/-- C3 (amended): when `find_word_in_sentence_with_conjugation` returns
`(before, matched, after)` and the tables pair the matched pattern with
display suffix `d`, then `after` is `d` prepended to the part of the
*stripped* sentence following the occurrence (so for the exact or
dictionary form, whose display suffix is empty, `after` carries no
annotation). -/
theorem find_conj_after_display (kanji sentence b m a : Str)
    (h : find_word_in_sentence_with_conjugation kanji sentence = some (b, m, a)) :
    ∀ d, (m, d) ∈ get_stem_and_conjugations (pyStrip kanji) →
      ∃ rest, b ++ m ++ rest = pyStrip sentence ∧ a = d ++ rest := by
  unfold find_word_in_sentence_with_conjugation at h
  split at h
  · cases h
  · obtain ⟨i, d2, hmem, hne, hfind, hb, ha⟩ := tryPairs_eq_some _ _ _ _ _ h
    intro d hd
    rw [List.mem_insertionSort] at hmem
    have hdd : d = d2 := eq_snd_of_fsts_nodup _ (nodup_fsts_gsc _) m d d2 hd hmem
    subst hdd
    refine ⟨(pyStrip sentence).drop (i + m.length), ?_, ha⟩
    rw [hb]
    exact strFind_split m (pyStrip sentence) i hfind

/-- C3 (counterexample): with the word `aく` and the sentence `"aいて "`
(trailing space) the code returns `after = "～いて"`, while the display
suffix prepended to the part of the *raw* sentence following the match
would be `"～いて "`. -/
theorem find_conj_after_display_cex :
    find_word_in_sentence_with_conjugation (S "aく") (S "aいて ") = some ([], S "aいて", S "～いて")
    ∧ (S "aいて", S "～いて") ∈ get_stem_and_conjugations (S "aく")
    ∧ ([] : Str) ++ S "aいて" ++ S " " = S "aいて "
    ∧ S "～いて" ≠ S "～いて" ++ S " " := by
  refine ⟨by rfl, by decide, by decide, by decide⟩

/-- Witness instantiating `find_conj_after_display` at a concrete input. -/
theorem find_conj_after_display_witness :
    ∃ rest, S "b" ++ S "aいて" ++ rest = pyStrip (S "baいてc") ∧ S "～いてc" = S "～いて" ++ rest :=
  find_conj_after_display (S "aく") (S "baいてc") (S "b") (S "aいて") (S "～いてc")
    (by rfl) (S "～いて") (by decide)

/-! ### SQL escaping (C9) and SQL generation (C6) -/

/-- C9 (confirmed): `escape_sql_string` returns `NULL` on `None`/`NaN`,
otherwise the string form in single quotes with every interior quote
doubled, and the quoted interior never contains an unpaired single quote. -/
theorem escape_sql_string_spec :
    escape_sql_string PyValue.none = S "NULL"
    ∧ escape_sql_string PyValue.nan = S "NULL"
    ∧ ∀ s : Str, escape_sql_string (PyValue.str s) = squo :: (doubleQuotes s ++ [squo])
        ∧ quotesPaired (doubleQuotes s) = true := by
  refine ⟨rfl, rfl, ?_⟩
  intro s
  refine ⟨rfl, ?_⟩
  induction s with
  | nil => rfl
  | cons c rest ih =>
    unfold doubleQuotes
    by_cases hc : c = squo
    · rw [if_pos hc]
      unfold quotesPaired
      rw [if_pos rfl]
      dsimp only
      rw [if_pos rfl]
      exact ih
    · rw [if_neg hc]
      unfold quotesPaired
      rw [if_neg hc]
      exact ih

theorem valuesLoop_aux (vs : List Vocab) :
    ∀ acc, vs.foldl (fun a v => a ++ [valueOf v]) acc = acc ++ vs.map valueOf := by
  induction vs with
  | nil => intro acc; simp
  | cons v rest ih =>
    intro acc
    rw [List.foldl_cons, ih, List.map_cons]
    simp

theorem valuesLoop_eq_map (vs : List Vocab) : valuesLoop vs = vs.map valueOf := by
  unfold valuesLoop
  rw [valuesLoop_aux]
  simp

/-- C6 (confirmed): `generate_sql` produces one INSERT INTO vocabulary
statement between a single `BEGIN;` and a single `COMMIT;`, and its VALUES
block is the comma-joined list of exactly one value tuple per input record,
in input order. -/
theorem generate_sql_structure (vs : List Vocab) (_hvs : vs ≠ []) :
    generate_sql vs =
      joinNL (sqlHeaderLines ++ [List.intercalate (S ",\n") (vs.map valueOf)] ++ sqlFooterLines)
    ∧ (vs.map valueOf).length = vs.length
    ∧ sqlHeaderLines.count (S "BEGIN;") = 1
    ∧ sqlFooterLines.count (S "COMMIT;") = 1
    ∧ sqlHeaderLines.count (S "INSERT INTO vocabulary (") = 1
    ∧ sqlFooterLines.count (S "BEGIN;") = 0
    ∧ sqlHeaderLines.count (S "COMMIT;") = 0
    ∧ sqlFooterLines.count (S "INSERT INTO vocabulary (") = 0 := by
  refine ⟨?_, by simp, by decide, by decide, by decide, by decide, by decide, by decide⟩
  unfold generate_sql
  rw [valuesLoop_eq_map]

/-- Witness instantiating `generate_sql_structure` on a one-record list. -/
theorem generate_sql_structure_witness :
    generate_sql [vocabExample] =
      joinNL (sqlHeaderLines ++ [List.intercalate (S ",\n") ([vocabExample].map valueOf)]
        ++ sqlFooterLines)
    ∧ ([vocabExample].map valueOf).length = [vocabExample].length
    ∧ sqlHeaderLines.count (S "BEGIN;") = 1
    ∧ sqlFooterLines.count (S "COMMIT;") = 1
    ∧ sqlHeaderLines.count (S "INSERT INTO vocabulary (") = 1
    ∧ sqlFooterLines.count (S "BEGIN;") = 0
    ∧ sqlHeaderLines.count (S "COMMIT;") = 0
    ∧ sqlFooterLines.count (S "INSERT INTO vocabulary (") = 0 :=
  generate_sql_structure [vocabExample] (List.cons_ne_nil _ _)
